import Mathlib

/-!
# p2p-agent: fetch/fallback, identifier computation and seeding

A shallow embedding of access.go, fetcher.go and seed.go, and the properties claimed of
them. resolver.go only delegates to the origin resolver and wraps its fetcher in a
P2PFetcher; nothing below depends on it.

Conventions of the embedding

* A Go result pair (value, error) is a Lean pair whose second component is an
  Option Error; none is the nil error.
* Everything outside the process (environment variables, the directory service, the
  file system, the swarm client, the image store) is a field of Env. Functions of the
  source that talk to the outside take env as their first argument.
* A function that can fail to return (an unbounded loop, a channel receive that is
  never served) or stop with a runtime panic returns a Run value.
* seed and initSeed thread a log of the calls they make, in program order.
-/

namespace P2PAgent

/-! ## Values shared by all files -/

abbrev Byte := UInt8

/-- Go error values. eof is the sentinel io.EOF, which the source compares by identity;
every other error (errors.New, fmt.Errorf, errors of collaborators) carries its text. -/
inductive Error where
  | eof
  | text (msg : String)
deriving DecidableEq, Repr

/-- The text of an error, as the verb percent-w of fmt.Errorf renders it. -/
def Error.msg : Error → String
  | .eof => "EOF"
  | .text m => m

/-- Outcome of running a Go function: it returns a value, it stops with a runtime panic,
or it never returns. -/
inductive Run (α : Type) where
  | ret (a : α)
  | crash (msg : String)
  | diverge
deriving DecidableEq, Repr

/-! ## Library functions used by seed.go

crypto/sha1.Sum (FIPS 180-4), the percent-x rendering of a byte array, and the bencode
encoding of the InfoDict struct (github.com/anacrolix/torrent/bencode: a dictionary
whose keys are the struct tags in sorted order). -/

def rotl32 (x n : Nat) : Nat := ((x <<< n) ||| (x >>> (32 - n))) % 2 ^ 32

def be32 (x : Nat) : List Byte :=
  [UInt8.ofNat (x >>> 24), UInt8.ofNat (x >>> 16), UInt8.ofNat (x >>> 8), UInt8.ofNat x]

def be64 (x : Nat) : List Byte := be32 (x >>> 32) ++ be32 x

def sha1Pad (msg : List Byte) : List Byte :=
  msg ++ [0x80] ++ List.replicate ((119 - msg.length % 64) % 64) 0
    ++ be64 (8 * msg.length % 2 ^ 64)

def wordOf (bs : List Byte) : Nat :=
  bs.foldl (fun acc b => acc * 256 + b.toNat) 0

def blockWords : Nat → List Byte → List Nat
  | 0, _ => []
  | k + 1, bs => wordOf (bs.take 4) :: blockWords k (bs.drop 4)

def schedule : Nat → List Nat → List Nat
  | 0, w => w
  | k + 1, w =>
    schedule k (w ++ [rotl32 (w.getD (w.length - 3) 0 ^^^ w.getD (w.length - 8) 0
      ^^^ w.getD (w.length - 14) 0 ^^^ w.getD (w.length - 16) 0) 1])

structure Sha1State where
  a : Nat
  b : Nat
  c : Nat
  d : Nat
  e : Nat
deriving DecidableEq, Repr

def sha1Round (t : Nat) (s : Sha1State) (w : Nat) : Sha1State :=
  let fk : Nat × Nat :=
    if t < 20 then ((s.b &&& s.c) ||| ((s.b ^^^ 0xFFFFFFFF) &&& s.d), 0x5A827999)
    else if t < 40 then (s.b ^^^ s.c ^^^ s.d, 0x6ED9EBA1)
    else if t < 60 then ((s.b &&& s.c) ||| (s.b &&& s.d) ||| (s.c &&& s.d), 0x8F1BBCDC)
    else (s.b ^^^ s.c ^^^ s.d, 0xCA62C1D6)
  { a := (rotl32 s.a 5 + fk.1 + s.e + fk.2 + w) % 2 ^ 32,
    b := s.a, c := rotl32 s.b 30, d := s.c, e := s.d }

def sha1Rounds : Nat → List Nat → Sha1State → Sha1State
  | _, [], s => s
  | t, w :: ws, s => sha1Rounds (t + 1) ws (sha1Round t s w)

def sha1Block (h : Sha1State) (block : List Byte) : Sha1State :=
  let s := sha1Rounds 0 (schedule 64 (blockWords 16 block)) h
  { a := (h.a + s.a) % 2 ^ 32, b := (h.b + s.b) % 2 ^ 32, c := (h.c + s.c) % 2 ^ 32,
    d := (h.d + s.d) % 2 ^ 32, e := (h.e + s.e) % 2 ^ 32 }

def sha1Blocks : Nat → List Byte → Sha1State → Sha1State
  | 0, _, h => h
  | k + 1, bs, h => sha1Blocks k (bs.drop 64) (sha1Block h (bs.take 64))

def sha1Init : Sha1State :=
  { a := 0x67452301, b := 0xEFCDAB89, c := 0x98BADCFE, d := 0x10325476, e := 0xC3D2E1F0 }

/-- The function sha1.Sum: the 20-byte SHA-1 digest of a byte string. -/
def sha1Sum (msg : List Byte) : List Byte :=
  let h := sha1Blocks ((sha1Pad msg).length / 64) (sha1Pad msg) sha1Init
  be32 h.a ++ be32 h.b ++ be32 h.c ++ be32 h.d ++ be32 h.e

def hexDigits : List Char := "0123456789abcdef".toList

def hexDigit (n : Nat) : Char := hexDigits.getD n '0'

/-- The rendering fmt.Sprintf with the verb percent-x of a byte array: two lower-case
hexadecimal digits per byte. -/
def hexOf (bs : List Byte) : String :=
  String.mk (bs.flatMap fun b => [hexDigit (b.toNat / 16), hexDigit (b.toNat % 16)])

/-- The bytes of a Go string (UTF-8). -/
def bytesOf (s : String) : List Byte := s.toList.flatMap String.utf8EncodeChar

def bencodeBytes (bs : List Byte) : List Byte :=
  bytesOf (toString bs.length) ++ bytesOf ":" ++ bs

def bencodeInt (i : Int) : List Byte :=
  bytesOf "i" ++ bytesOf (toString i) ++ bytesOf "e"

/-- The struct InfoDict of seed.go. -/
structure InfoDict where
  Name : String
  PieceLength : Int
  Pieces : List Byte
  Length : Int
deriving DecidableEq, Repr

/-- The call encoder.Encode(info): the struct is written as a dictionary with the keys
length, name, piece length, pieces. Every field type is encodable and the sink is an
in-memory buffer, so the call does not fail on an InfoDict. -/
def bencodeEncode (info : InfoDict) : Except Error (List Byte) :=
  .ok (bytesOf "d"
    ++ bencodeBytes (bytesOf "length") ++ bencodeInt info.Length
    ++ bencodeBytes (bytesOf "name") ++ bencodeBytes (bytesOf info.Name)
    ++ bencodeBytes (bytesOf "piece length") ++ bencodeInt info.PieceLength
    ++ bencodeBytes (bytesOf "pieces") ++ bencodeBytes info.Pieces
    ++ bytesOf "e")

/-! ## The outside world -/

/-- A regular file as os.OpenFile hands it out. Stat reports name as the base name and
the number of bytes of data as the size. readFault (k, msg) makes the read issued after
k successful reads fail with an I/O error of that text (never io.EOF, which a read
returns only at the end of the file). -/
structure RegularFile where
  name : String
  data : List Byte
  statErr : Option Error
  readFault : Option (Nat × String)
deriving DecidableEq, Repr

/-- An open file: the bytes not yet read and the pending read fault. -/
structure Handle where
  rest : List Byte
  fault : Option (Nat × String)
deriving DecidableEq, Repr

/-- The most bytes one call of os.File.Read transfers (the constant maxRW of the Go
runtime, 1 GiB): a longer buffer is cut to this length before the read. -/
def maxRW : Nat := 2 ^ 30

/-- The largest length make([]byte, n) accepts on a 64-bit platform (the constant
maxAlloc of the Go runtime); above it, as below zero, make panics. It lies below the
largest int, so a length that does not fit the 64-bit int of Go is rejected as well. -/
def maxAlloc : Nat := 2 ^ 48

/-- The call file.Read(buf) with a buffer of bufLen bytes: the bytes placed in
buf[:n], the error, and the file afterwards. A read into an empty buffer returns 0 and
nil at once; at the end of the file a read returns 0 and io.EOF; otherwise a read on a
regular file transfers as many bytes as the buffer holds, at most maxRW, or the bytes
that remain when they are fewer. -/
def fileRead (h : Handle) (bufLen : Nat) : List Byte × Option Error × Handle :=
  if bufLen = 0 then ([], none, h)
  else
    match h.fault with
    | some (0, msg) => ([], some (.text msg), h)
    | _ =>
      if h.rest.isEmpty then ([], some Error.eof, h)
      else (h.rest.take (min bufLen maxRW), none,
        { rest := h.rest.drop (min bufLen maxRW),
          fault := h.fault.map fun km => (km.1 - 1, km.2) })

/-- The shapes a decoded JSON value can take; only strings are inspected. -/
inductive JsonValue where
  | null
  | bool (b : Bool)
  | number (n : Int)
  | string (s : String)
  | array
  | object
deriving DecidableEq, Repr

/-- What io.ReadAll followed by json.Unmarshal into a map makes of a response body. -/
inductive Body where
  | unreadable (err : Error)
  | malformed (err : Error)
  | object (fields : List (String × JsonValue))
deriving DecidableEq, Repr

structure Response where
  StatusCode : Int
  Body : Body
deriving DecidableEq, Repr

/-- A content digest, algorithm and encoded hash; String() joins them with a colon. -/
structure Digest where
  algorithm : String
  encoded : String
deriving DecidableEq, Repr

def Digest.String (d : Digest) : String := d.algorithm ++ ":" ++ d.encoded

/-- The type ocispec.Descriptor. -/
structure Descriptor where
  Digest : Digest
  MediaType : String
  Size : Int
deriving DecidableEq, Repr

/-- An entry of the image store. -/
structure Image where
  Name : String
  Target : Descriptor
deriving DecidableEq, Repr

/-- A torrent handle returned by AddMagnet: its name and the paths of its files. -/
structure Torrent where
  Name : String
  Files : List String
deriving DecidableEq, Repr

/-- The caller context; the wake-ups it causes are given by Env.wakeups. -/
structure Context where
  id : Nat
deriving DecidableEq, Repr

/-- One wake-up of the select in WaitP2PDownloadComplete: the context is done with
error err, or the ticker fires while the torrent reports the two byte counts. -/
inductive Wakeup where
  | done (err : Error)
  | tick (bytesCompleted totalLength : Int)
deriving DecidableEq, Repr

/-- A stream handed to the caller of Fetch: a local file opened with os.Open, or a
stream of a collaborator. -/
inductive ReadCloser where
  | file (path : String) (data : List Byte)
  | remote (source : String) (data : List Byte)
deriving DecidableEq, Repr

/-- The interface remotes.Fetcher: Fetch(ctx, desc). -/
abbrev Fetcher := Context → Descriptor → Option ReadCloser × Option Error

/-- Result of os.Stat as the source inspects it. -/
inductive StatResult where
  | found
  | notExist
  | failed (err : Error)
deriving DecidableEq, Repr

/-- Everything outside the process. -/
structure Env where
  /-- Environment variables (os.Getenv). -/
  getenv : String → String
  /-- Error of url.Parse on an endpoint, none when it parses. -/
  urlParse : String → Option Error
  /-- Result of http.Get on the path /infohash of the endpoint, for a digest. -/
  httpGet : String → String → Except Error Response
  /-- Result of http.Post on the path /modify of the endpoint, for a digest and an
  identifier. -/
  httpPost : String → String → String → Except Error Response
  /-- Result of os.OpenFile and os.Open. -/
  openFile : String → Except Error RegularFile
  /-- Result of os.Stat. -/
  stat : String → StatResult
  /-- Result of AddMagnet on the swarm client. -/
  addMagnet : String → Except Error Torrent
  /-- Whether the channel GotInfo of a torrent is ever closed, that is whether some peer
  supplies the metadata; a receive on it blocks for ever when it is not. -/
  gotInfo : Torrent → Bool
  /-- Wake-ups of the completion wait for a context and a torrent. -/
  wakeups : Context → Torrent → List Wakeup
  /-- Result of listing the image store. -/
  imageList : Except Error (List Image)
  /-- Descriptors that the content of a descriptor references (manifest to config and
  layers, index to manifests). -/
  children : Descriptor → List Descriptor

/-! ## seed.go: CalcInfoHashFromFile -/

/-- The read loop of CalcInfoHashFromFile (lines 41 to 54): read, stop at io.EOF, fail
on any other error, otherwise append the SHA-1 of buf[:n]. The first argument bounds
the number of iterations; when it is used up the loop is still running. -/
def readPieces : Nat → Handle → Nat → List Byte → Run (Except Error (List Byte))
  | 0, _, _, _ => .diverge
  | fuel + 1, h, bufLen, pieceHashes =>
    match fileRead h bufLen with
    | (_, some err, _) => if err = Error.eof then .ret (.ok pieceHashes) else .ret (.error err)
    | (chunk, none, h1) => readPieces fuel h1 bufLen (pieceHashes ++ sha1Sum chunk)

/-- Lines 30 to 61 of CalcInfoHashFromFile: open, stat, the read loop, and the info
structure. make panics on a negative length and on a length above maxAlloc. The loop
gets one iteration more than the file has bytes: with a non-empty buffer every
successful read consumes a byte, so the bound is only reached when the buffer is empty
and the Go loop spins forever (readPieces_returns, readPieces_empty_buffer_diverges). -/
def buildInfoDict (env : Env) (filePath : String) (pieceLength : Int) :
    Run (Except Error InfoDict) :=
  match env.openFile filePath with
  | .error err => .ret (.error err)
  | .ok file =>
    match file.statErr with
    | some err => .ret (.error err)
    | none =>
      if pieceLength < 0 ∨ (maxAlloc : Int) < pieceLength then
        .crash "makeslice: len out of range"
      else
        match readPieces (file.data.length + 1) { rest := file.data, fault := file.readFault }
            pieceLength.toNat [] with
        | .ret (.error err) => .ret (.error err)
        | .ret (.ok pieceHashes) =>
          .ret (.ok { Name := file.name, PieceLength := pieceLength,
                      Pieces := pieceHashes, Length := file.data.length })
        | .crash m => .crash m
        | .diverge => .diverge

/-- The function CalcInfoHashFromFile of seed.go. -/
def CalcInfoHashFromFile (env : Env) (filePath : String) (pieceLength : Int) :
    Run (String × Option Error) :=
  match buildInfoDict env filePath pieceLength with
  | .ret (.error err) => .ret ("", some err)
  | .ret (.ok info) =>
    match bencodeEncode info with
    | .error err => .ret ("", some (.text ("Bencode encode failed: " ++ err.msg)))
    | .ok bencodeBuffer => .ret (hexOf (sha1Sum bencodeBuffer), none)
  | .crash m => .crash m
  | .diverge => .diverge

/-! ## access.go: the directory client -/

def metaserviceDefault : String := "http://metaservice.kube-system.svc.cluster.local:80"

def trackerDefault : String := "http://tracker.kube-system.svc.cluster.local:80/announce"

/-- The endpoint read from METASERVICE_URL, with the default when the variable is empty
(lines 17 to 21 and 62 to 66 of access.go). -/
def metaserviceURL (env : Env) : String :=
  if env.getenv "METASERVICE_URL" = "" then metaserviceDefault else env.getenv "METASERVICE_URL"

/-- The tracker read from TRACKER_ANNOUNCE_URL, with the default when the variable is
empty. -/
def trackerAnnounceURL (env : Env) : String :=
  if env.getenv "TRACKER_ANNOUNCE_URL" = "" then trackerDefault
  else env.getenv "TRACKER_ANNOUNCE_URL"

/-- Lines 45 to 58 of GetInfohash: read the body, decode it into a map, and take the
entry infohash when it is a string. -/
def decodeInfohash (resp : Response) : String × Option Error :=
  match resp.Body with
  | .unreadable err => ("", some err)
  | .malformed err => ("", some err)
  | .object jsonMap =>
    match jsonMap.lookup "infohash" with
    | some (.string infohash) => (infohash, none)
    | _ => ("", some (.text "Bad response: 200 but infohash not found"))

/-- The function GetInfohash of access.go. -/
def GetInfohash (env : Env) (digest : String) : String × Option Error :=
  match env.urlParse (metaserviceURL env) with
  | some err => ("", some err)
  | none =>
    match env.httpGet (metaserviceURL env) digest with
    | .error err => ("", some err)
    | .ok resp =>
      if resp.StatusCode ≠ 200 then
        if resp.StatusCode = 500 then ("", some (.text "StatusInternalServerError"))
        else if resp.StatusCode = 404 then ("", none)
        else decodeInfohash resp
      else decodeInfohash resp

/-- The function Modify of access.go. -/
def Modify (env : Env) (digest infohash : String) : Option Error :=
  match env.urlParse (metaserviceURL env) with
  | some err => some err
  | none =>
    match env.httpPost (metaserviceURL env) digest infohash with
    | .error err => some err
    | .ok resp =>
      if resp.StatusCode ≠ 200 then
        if resp.StatusCode = 500 then some (.text "StatusInternalServerError")
        else if resp.StatusCode = 400 then some (.text "StatusBadRequest")
        else none
      else none

/-! ## fetcher.go: the hybrid fetcher -/

/-- The magnet link built with fmt.Sprintf in P2PFetch and in seed. -/
def magnetLink (infohash digest tracker : String) : String :=
  "magnet:?xt=urn:btih:" ++ infohash ++ "&dn=" ++ digest ++ "&tr=" ++ tracker

/-- The result of os.Open on a path. -/
def osOpen (env : Env) (path : String) : Option ReadCloser × Option Error :=
  match env.openFile path with
  | .ok file => (some (.file path file.data), none)
  | .error err => (none, some err)

/-- The function WaitP2PDownloadComplete of fetcher.go, over the wake-ups of its select:
a done context returns ctx.Err(), a tick returns nil once bytesCompleted has reached
totalLength and otherwise loops. With no wake-up left the select blocks. -/
def WaitP2PDownloadComplete : List Wakeup → Run (Option Error)
  | [] => .diverge
  | .done err :: _ => .ret (some err)
  | .tick bytesCompleted totalLength :: rest =>
    if bytesCompleted ≥ totalLength then .ret none else WaitP2PDownloadComplete rest

/-- The function P2PFetch of fetcher.go. The error of GetInfohash is only logged; the
receive on GotInfo blocks for ever when the metadata never arrives; the result of
WaitP2PDownloadComplete is not bound to any variable; indexing Files() at 0 panics on
an empty slice. -/
def P2PFetch (env : Env) (ctx : Context) (desc : Descriptor) :
    Run (Option ReadCloser × Option Error) :=
  if (GetInfohash env desc.Digest.String).1 = "" then
    .ret (none, some (.text ("infohash not found for digest: " ++ desc.Digest.String)))
  else
    match env.addMagnet (magnetLink (GetInfohash env desc.Digest.String).1 desc.Digest.String
        (trackerAnnounceURL env)) with
    | .error err => .ret (none, some err)
    | .ok t =>
      if env.gotInfo t then
        match WaitP2PDownloadComplete (env.wakeups ctx t) with
        | .crash m => .crash m
        | .diverge => .diverge
        | .ret _ =>
          match t.Files with
          | [] => .crash "index out of range [0] with length 0"
          | blobPath :: _ => .ret (osOpen env blobPath)
      else .diverge

/-- The function FallbackFetch of fetcher.go. -/
def FallbackFetch (ctx : Context) (desc : Descriptor) (fallback : Fetcher) :
    Option ReadCloser × Option Error :=
  fallback ctx desc

/-- The method P2PFetcher.Fetch of fetcher.go; fallback is the field of the receiver, the
swarm client is part of env. -/
def Fetch (env : Env) (fallback : Fetcher) (ctx : Context) (desc : Descriptor) :
    Run (Option ReadCloser × Option Error) :=
  match P2PFetch env ctx desc with
  | .crash m => .crash m
  | .diverge => .diverge
  | .ret (reader, none) => .ret (reader, none)
  | .ret (_, some _) =>
    match FallbackFetch ctx desc fallback with
    | (_, some err) => .ret (none, some err)
    | (fallbackReader, none) => .ret (fallbackReader, none)

/-! ## seed.go: seed and initSeed -/

/-- The calls made by seed, logged in program order. called marks the entry of seed
itself. -/
inductive Event where
  | called (digest filePath : String)
  | lookup (digest : String)
  | compute (filePath : String) (pieceLength : Int)
  | register (digest infohash : String)
  | join (magnet : String)
  | gotInfo (t : Torrent)
  | downloadAll (t : Torrent)
deriving DecidableEq, Repr

/-- Lines 99 to 108 of seed: AddMagnet, the receive on GotInfo, and DownloadAll. The
receive takes no context and no timeout: when the metadata never arrives, seed does not
return. -/
def seedJoin (env : Env) (digest serviceInfohash : String) (log : List Event) :
    Run (Option Error) × List Event :=
  match env.addMagnet (magnetLink serviceInfohash digest (trackerAnnounceURL env)) with
  | .error err =>
    (.ret (some err),
      log ++ [.join (magnetLink serviceInfohash digest (trackerAnnounceURL env))])
  | .ok t =>
    if env.gotInfo t then
      (.ret none,
        log ++ [.join (magnetLink serviceInfohash digest (trackerAnnounceURL env)),
                .gotInfo t, .downloadAll t])
    else
      (.diverge, log ++ [.join (magnetLink serviceInfohash digest (trackerAnnounceURL env))])

/-- The function seed of seed.go, with the log of calls made so far. -/
def seed (env : Env) (digest filePath : String) (log : List Event) :
    Run (Option Error) × List Event :=
  match GetInfohash env digest with
  | (_, some err) => (.ret (some err), log ++ [.called digest filePath, .lookup digest])
  | (serviceInfohash, none) =>
    if serviceInfohash = "" then
      match CalcInfoHashFromFile env filePath 262144 with
      | .crash m =>
        (.crash m, log ++ [.called digest filePath, .lookup digest, .compute filePath 262144])
      | .diverge =>
        (.diverge, log ++ [.called digest filePath, .lookup digest, .compute filePath 262144])
      | .ret (_, some err) =>
        (.ret (some err),
          log ++ [.called digest filePath, .lookup digest, .compute filePath 262144])
      | .ret (infoHash, none) =>
        match Modify env digest infoHash with
        | some err =>
          (.ret (some err),
            log ++ [.called digest filePath, .lookup digest, .compute filePath 262144,
                    .register digest infoHash])
        | none =>
          seedJoin env digest infoHash
            (log ++ [.called digest filePath, .lookup digest, .compute filePath 262144,
                     .register digest infoHash])
    else seedJoin env digest serviceInfohash (log ++ [.called digest filePath, .lookup digest])

/-- The function filepath.Join on components that are already clean. -/
def joinPath (parts : List String) : String := "/".intercalate parts

/-- The handler passed to images.Walk in initSeed (lines 127 to 144), on the map of blob
locations. The map is a list of entries in insertion order. The handler returns no
children and no error on every path. -/
def blobHandler (env : Env) (contentStorePath : String) (desc : Descriptor)
    (blobLocationMap : List (Digest × String)) :
    (List Descriptor × Option Error) × List (Digest × String) :=
  if (blobLocationMap.lookup desc.Digest).isSome then (([], none), blobLocationMap)
  else
    match env.stat (joinPath [contentStorePath, "blobs", desc.Digest.algorithm,
        desc.Digest.encoded]) with
    | .notExist => (([], none), blobLocationMap)
    | _ =>
      (([], none), blobLocationMap ++ [(desc.Digest,
        joinPath [contentStorePath, "blobs", desc.Digest.algorithm, desc.Digest.encoded])])

/-- The loop of images.Walk over its descriptors, with the treatment of one descriptor
given by step: the first error stops the loop. -/
def walkEach {σ : Type} (step : Descriptor → σ → Option (Option Error × σ)) :
    List Descriptor → σ → Option (Option Error × σ)
  | [], s => some (none, s)
  | desc :: rest, s =>
    match step desc s with
    | none => none
    | some (some err, s1) => some (some err, s1)
    | some (none, s1) => walkEach step rest s1

/-- The function images.Walk of containerd: call the handler on each descriptor and, when
it returned children, walk them before going on; the first error stops the walk. The
first argument bounds how many levels below the given descriptors the walk may descend;
none means the content goes deeper than that. -/
def Walk {σ : Type} (handler : Descriptor → σ → (List Descriptor × Option Error) × σ) :
    Nat → List Descriptor → σ → Option (Option Error × σ)
  | 0, descs, s =>
    walkEach (fun desc s0 =>
      match handler desc s0 with
      | ((_, some err), s1) => some (some err, s1)
      | (([], none), s1) => some (none, s1)
      | ((_ :: _, none), _) => none) descs s
  | depth + 1, descs, s =>
    walkEach (fun desc s0 =>
      match handler desc s0 with
      | ((_, some err), s1) => some (some err, s1)
      | (([], none), s1) => some (none, s1)
      | ((child :: children, none), s1) => Walk handler depth (child :: children) s1) descs s

/-- The first loop of initSeed (lines 126 to 150): walk every image from its target; an
error of a walk is logged and the loop continues. -/
def collectBlobs (env : Env) (contentStorePath : String) (depth : Nat) :
    List Image → List (Digest × String) → Option (List (Digest × String))
  | [], blobLocationMap => some blobLocationMap
  | image :: rest, blobLocationMap =>
    match Walk (blobHandler env contentStorePath) depth [image.Target] blobLocationMap with
    | none => none
    | some (_, m1) => collectBlobs env contentStorePath depth rest m1

/-- The second loop of initSeed (lines 152 to 162): seed every entry of the map; an
error of seed is logged and the loop continues; after the loop initSeed returns nil. A
call of seed that does not return keeps the loop from going on. -/
def seedLoop (env : Env) : List (Digest × String) → List Event → Run (Option Error) × List Event
  | [], log => (.ret none, log)
  | (d, filePath) :: rest, log =>
    match seed env d.String filePath log with
    | (.ret _, log1) => seedLoop env rest log1
    | (.crash m, log1) => (.crash m, log1)
    | (.diverge, log1) => (.diverge, log1)

/-- The function initSeed of seed.go. walkDepth is the depth allowed to each walk; the
result does not depend on it, since the handler returns no children
(initSeed_walkDepth_irrelevant). -/
def initSeed (env : Env) (containerdRoot : String) (walkDepth : Nat) (log : List Event) :
    Run (Option Error) × List Event :=
  match env.imageList with
  | .error _ => (.ret (some (.text "Unable to list images")), log)
  | .ok imageList =>
    if imageList.length = 0 then (.ret (some (.text "No images found")), log)
    else
      match collectBlobs env (joinPath [containerdRoot, "io.containerd.content.v1.content"])
          walkDepth imageList [] with
      | none => (.diverge, log)
      | some blobLocationMap => seedLoop env blobLocationMap log

/-- The pairs (digest, path) on which seed was entered, in order. -/
def seedCalls : List Event → List (String × String)
  | [] => []
  | .called d p :: rest => (d, p) :: seedCalls rest
  | _ :: rest => seedCalls rest

/-! ## Definitions that follow the wording of the specification -/

/-- The number ceil(n/c) of the chunking claim. -/
def ceilDiv (n c : Nat) : Nat := (n + c - 1) / c

/-- The chunks of the chunking claim: ceil(n/c) of them, chunk i being the bytes of the
file from offset i*c up to, and not including, offset i*c + c or the end of the file. -/
def specChunks (c : Nat) (data : List Byte) : List (List Byte) :=
  (List.range (ceilDiv data.length c)).map fun i => (data.drop (i * c)).take c

/-- Every descriptor reachable from the given ones through the references of the
content store, to the given depth. -/
def reachable (env : Env) : Nat → List Descriptor → List Descriptor
  | 0, _ => []
  | depth + 1, descs => descs ++ reachable env depth (descs.flatMap env.children)

/-- The blobs the enumeration claim has initSeed seed: the distinct digests referenced by
the tracked images whose backing file exists, each with its path under the content
root. -/
def referencedBlobs (env : Env) (contentStorePath : String) (depth : Nat) :
    List (String × String) :=
  match env.imageList with
  | .error _ => []
  | .ok imageList =>
    (((reachable env depth (imageList.map fun image => image.Target)).map
        fun desc => desc.Digest).eraseDups.filter fun d =>
          env.stat (joinPath [contentStorePath, "blobs", d.algorithm, d.encoded]) = .found).map
      fun d => (d.String, joinPath [contentStorePath, "blobs", d.algorithm, d.encoded])

/-! ## Concrete environments -/

/-- An environment with nothing in it: every request fails. -/
def emptyEnv : Env where
  getenv := fun _ => ""
  urlParse := fun _ => none
  httpGet := fun _ _ => .error (.text "connection refused")
  httpPost := fun _ _ _ => .error (.text "connection refused")
  openFile := fun _ => .error (.text "no such file or directory")
  stat := fun _ => .notExist
  addMagnet := fun _ => .error (.text "client closed")
  gotInfo := fun _ => false
  wakeups := fun _ _ => []
  imageList := .ok []
  children := fun _ => []

/-- Two files with the same single byte and different names. -/
def twinEnv : Env :=
  { emptyEnv with
    openFile := fun p =>
      if p = "/blobs/a" then
        .ok { name := "a", data := [0x78], statErr := none, readFault := none }
      else if p = "/blobs/b" then
        .ok { name := "b", data := [0x78], statErr := none, readFault := none }
      else .error (.text "no such file or directory") }

/-- Another machine that holds the file a of twinEnv under another directory. -/
def movedEnv : Env :=
  { emptyEnv with
    openFile := fun p =>
      if p = "/mirror/a" then
        .ok { name := "a", data := [0x78], statErr := none, readFault := none }
      else .error (.text "no such file or directory") }

/-- A file of five bytes, read without faults. -/
def fiveBytes : RegularFile :=
  { name := "five", data := [1, 2, 3, 4, 5], statErr := none, readFault := none }

def fiveEnv : Env :=
  { emptyEnv with openFile := fun _ => .ok fiveBytes }

/-- The files of twinEnv, a directory that answers every lookup with 404 and accepts
every registration, and a swarm client that accepts every magnet link. No peer holds the
metadata of an identifier that was only just computed, so it never arrives. -/
def freshEnv : Env :=
  { twinEnv with
    httpGet := fun _ _ => .ok { StatusCode := 404, Body := .object [] }
    httpPost := fun _ _ _ => .ok { StatusCode := 200, Body := .object [] }
    addMagnet := fun m => .ok { Name := m, Files := ["a"] } }

/-- A directory that knows every digest under the same identifier, and a swarm client
that accepts every magnet link and gets the metadata from a peer. -/
def knownEnv : Env :=
  { emptyEnv with
    gotInfo := fun _ => true
    httpGet := fun _ _ =>
      .ok { StatusCode := 200,
            Body := .object [("infohash", .string "5988cb31ef27b5d606433e918de3c806cf628ebb")] }
    addMagnet := fun m => .ok { Name := m, Files := ["layer"] } }

/-- As knownEnv, for a fetch that is cancelled before the download completes: the ticker
fires once with 2 of 4 bytes completed, then the context is done; the file of the
torrent holds the 2 bytes received so far. -/
def cancelledEnv : Env :=
  { knownEnv with
    wakeups := fun _ _ => [.tick 2 4, .done (.text "context canceled")]
    openFile := fun p =>
      if p = "layer" then
        .ok { name := "layer", data := [0x10, 0x20], statErr := none, readFault := none }
      else .error (.text "no such file or directory") }

/-- An origin fetcher that serves the complete 4-byte blob. -/
def originFetcher : Fetcher :=
  fun _ _ => (some (.remote "origin" [0x10, 0x20, 0x30, 0x40]), none)

/-- An origin fetcher that fails. -/
def brokenFetcher : Fetcher :=
  fun _ _ => (none, some (.text "origin: 503 Service Unavailable"))

def layerDesc : Descriptor :=
  { Digest := { algorithm := "sha256", encoded := "1a" },
    MediaType := "application/vnd.oci.image.layer.v1.tar+gzip", Size := 4 }

def configDesc : Descriptor :=
  { Digest := { algorithm := "sha256", encoded := "c0" },
    MediaType := "application/vnd.oci.image.config.v1+json", Size := 2 }

def manifestDesc : Descriptor :=
  { Digest := { algorithm := "sha256", encoded := "3f" },
    MediaType := "application/vnd.oci.image.manifest.v1+json", Size := 3 }

/-- A content store with one image: its target is a manifest that references a config
and a layer, and the files of all three exist. The directory is unreachable. -/
def storeEnv : Env :=
  { emptyEnv with
    imageList := .ok [{ Name := "docker.io/library/app:latest", Target := manifestDesc }]
    children := fun desc => if desc = manifestDesc then [configDesc, layerDesc] else []
    stat := fun _ => .found }

/-- A file of maxRW + 1 = 2^30 + 1 zero bytes, read without faults. -/
def hugeFile : RegularFile :=
  { name := "huge", data := List.replicate (maxRW + 1) 0, statErr := none,
    readFault := none }

def hugeEnv : Env :=
  { emptyEnv with openFile := fun _ => .ok hugeFile }

/-- Two blobs of a batch. -/
def batchBlobs : List (Digest × String) :=
  [(manifestDesc.Digest, "/blobs/sha256/3f"), (layerDesc.Digest, "/blobs/sha256/1a")]

/-- A directory that answers the lookup of sha256:3f with status 500 and knows every
other digest, and a swarm client that accepts every magnet link and gets the metadata. -/
def batchEnv : Env :=
  { knownEnv with
    httpGet := fun _ digest =>
      if digest = "sha256:3f" then
        .ok { StatusCode := 500, Body := .malformed (.text "invalid character") }
      else
        .ok { StatusCode := 200,
              Body := .object
                [("infohash", .string "5988cb31ef27b5d606433e918de3c806cf628ebb")] } }

/-- As knownEnv, with a swarm in which no peer supplies the metadata, and a content store
that tracks two images whose files exist. -/
def stalledEnv : Env :=
  { knownEnv with
    gotInfo := fun _ => false
    imageList := .ok [{ Name := "docker.io/library/app:latest", Target := manifestDesc },
                      { Name := "docker.io/library/base:latest", Target := layerDesc }]
    stat := fun _ => .found }

/-- A directory whose endpoint parses and answers every lookup with status 500. -/
def failingDirectoryEnv : Env :=
  { emptyEnv with
    httpGet := fun _ _ =>
      .ok { StatusCode := 500, Body := .malformed (.text "invalid character") } }

/-! ## Lemmas: SHA-1 output size and hexadecimal rendering -/

theorem sha1Sum_length (msg : List Byte) : (sha1Sum msg).length = 20 := by
  simp [sha1Sum, be32]

theorem hexDigit_mem (n : Nat) (h : n < 16) : hexDigit n ∈ hexDigits := by
  interval_cases n <;> decide

theorem hexOf_length (bs : List Byte) : (hexOf bs).length = 2 * bs.length := by
  induction bs with
  | nil => rfl
  | cons b bs ih =>
    simp only [hexOf, String.length, List.flatMap_cons, List.length_append, List.length_cons,
      List.length_nil] at ih ⊢
    omega

theorem hexOf_chars (bs : List Byte) : ∀ ch ∈ (hexOf bs).toList, ch ∈ hexDigits := by
  intro ch hch
  have hch : ch ∈ bs.flatMap fun b => [hexDigit (b.toNat / 16), hexDigit (b.toNat % 16)] := hch
  simp only [List.mem_flatMap, List.mem_cons, List.mem_singleton] at hch
  obtain ⟨b, -, hb⟩ := hch
  have hlt : b.toNat < 256 := b.val.isLt
  rcases hb with rfl | rfl | hb
  · exact hexDigit_mem _ (by omega)
  · exact hexDigit_mem _ (by omega)
  · simp at hb

theorem flatMap_sha1_length (chunks : List (List Byte)) :
    (chunks.flatMap sha1Sum).length = 20 * chunks.length := by
  induction chunks with
  | nil => rfl
  | cons x xs ih =>
    rw [List.flatMap_cons, List.length_append, ih, sha1Sum_length, List.length_cons]
    omega

/-! ## Lemmas: chunks -/

theorem ceilDiv_zero (c : Nat) (hc : 0 < c) : ceilDiv 0 c = 0 := by
  unfold ceilDiv
  exact Nat.div_eq_of_lt (by omega)

theorem ceilDiv_step (n c : Nat) (hc : 0 < c) (hn : 0 < n) :
    ceilDiv n c = ceilDiv (n - c) c + 1 := by
  unfold ceilDiv
  by_cases h : c ≤ n
  · have : n + c - 1 = (n - c + c - 1) + c := by omega
    rw [this, Nat.add_div_right _ hc]
  · have h1 : n - c = 0 := by omega
    rw [h1]
    have h2 : (0 + c - 1) / c = 0 := Nat.div_eq_of_lt (by omega)
    rw [h2]
    have h3 : n + c - 1 = (n - 1) + c := by omega
    rw [h3, Nat.add_div_right _ hc, Nat.div_eq_of_lt (by omega)]

theorem ceilDiv_bounds (n c : Nat) (hc : 0 < c) (hn : 0 < n) :
    c * (ceilDiv n c - 1) < n ∧ n ≤ c * ceilDiv n c ∧ 0 < ceilDiv n c := by
  unfold ceilDiv
  have h1 := Nat.div_add_mod (n + c - 1) c
  have h2 := Nat.mod_lt (n + c - 1) hc
  have h3 : 0 < (n + c - 1) / c := Nat.div_pos (by omega) hc
  obtain ⟨k, hk⟩ : ∃ k, (n + c - 1) / c = k + 1 := ⟨(n + c - 1) / c - 1, by omega⟩
  rw [hk] at h1 ⊢
  simp only [Nat.add_sub_cancel]
  rw [Nat.mul_add, Nat.mul_one] at h1 ⊢
  refine ⟨by omega, by omega, by omega⟩

theorem specChunks_nil (c : Nat) (hc : 0 < c) : specChunks c [] = [] := by
  simp [specChunks, ceilDiv_zero c hc]

theorem specChunks_cons (c : Nat) (hc : 0 < c) (data : List Byte) (hne : data ≠ []) :
    specChunks c data = data.take c :: specChunks c (data.drop c) := by
  have hn : 0 < data.length := List.length_pos.mpr hne
  unfold specChunks
  rw [ceilDiv_step _ c hc hn, List.length_drop, List.range_succ_eq_map, List.map_cons,
    List.map_map]
  simp only [Nat.zero_mul, List.drop_zero, List.cons.injEq, true_and]
  apply List.map_congr_left
  intro i _
  simp only [Function.comp, List.drop_drop]
  congr 2
  rw [Nat.succ_mul]
  omega

theorem specChunks_flatten (c : Nat) (hc : 0 < c) :
    ∀ (n : Nat) (data : List Byte), data.length ≤ n → (specChunks c data).flatten = data := by
  intro n
  induction n with
  | zero =>
    intro data h
    have : data = [] := List.length_eq_zero.mp (by omega)
    subst this
    simp [specChunks_nil c hc]
  | succ n ih =>
    intro data h
    by_cases hne : data = []
    · subst hne
      simp [specChunks_nil c hc]
    · have hn : 0 < data.length := List.length_pos.mpr hne
      rw [specChunks_cons c hc data hne, List.flatten_cons,
        ih (data.drop c) (by rw [List.length_drop]; omega), List.take_append_drop]

theorem specChunks_length (c : Nat) (data : List Byte) :
    (specChunks c data).length = ceilDiv data.length c := by
  simp [specChunks]

theorem specChunks_getD (c : Nat) (data : List Byte) (i : Nat)
    (hi : i < ceilDiv data.length c) :
    (specChunks c data).getD i [] = (data.drop (i * c)).take c := by
  unfold specChunks
  rw [List.getD_eq_getElem _ _ (by simpa using hi)]
  simp

theorem specChunks_sizes (c : Nat) (hc : 0 < c) (data : List Byte) (i : Nat)
    (hi : i < ceilDiv data.length c) :
    ((specChunks c data).getD i []).length
      = if i + 1 < ceilDiv data.length c then c
        else data.length - c * (ceilDiv data.length c - 1) := by
  rw [specChunks_getD c data i hi, List.length_take, List.length_drop]
  have hn : 0 < data.length := by
    by_contra h
    have : data.length = 0 := by omega
    rw [this, ceilDiv_zero c hc] at hi
    omega
  obtain ⟨hlo, hhi, hpos⟩ := ceilDiv_bounds data.length c hc hn
  obtain ⟨k, hk⟩ : ∃ k, ceilDiv data.length c = k + 1 := ⟨ceilDiv data.length c - 1, by omega⟩
  rw [hk] at hi hlo hhi ⊢
  simp only [Nat.add_sub_cancel] at hlo ⊢
  split_ifs with hlast
  · have h1 : (i + 1) * c ≤ k * c := Nat.mul_le_mul_right c (by omega)
    rw [Nat.succ_mul] at h1
    rw [Nat.mul_comm c k] at hlo
    omega
  · have hik : i = k := by omega
    subst hik
    rw [Nat.mul_add, Nat.mul_one] at hhi
    rw [Nat.mul_comm c i] at hhi hlo ⊢
    omega

/-! ## Lemmas: the read loop and CalcInfoHashFromFile -/

theorem maxRW_pos : 0 < maxRW := by decide

theorem readPieces_full (c : Nat) (hc : 0 < c) :
    ∀ (fuel : Nat) (data acc : List Byte), data.length < fuel →
      readPieces fuel { rest := data, fault := none } c acc
        = .ret (.ok (acc ++ (specChunks (min c maxRW) data).flatMap sha1Sum)) := by
  have hm : 0 < min c maxRW := Nat.lt_min.mpr ⟨hc, maxRW_pos⟩
  intro fuel
  induction fuel with
  | zero => intro data acc h; omega
  | succ fuel ih =>
    intro data acc h
    have hc0 : c ≠ 0 := by omega
    by_cases hne : data = []
    · subst hne
      simp [readPieces, fileRead, hc0, specChunks_nil _ hm]
    · have hn : 0 < data.length := List.length_pos.mpr hne
      have hstep : fileRead { rest := data, fault := none } c
          = (data.take (min c maxRW), none,
             { rest := data.drop (min c maxRW), fault := none }) := by
        simp [fileRead, hc0, hne]
      rw [readPieces, hstep]
      simp only
      rw [ih (data.drop (min c maxRW)) _ (by rw [List.length_drop]; omega),
        specChunks_cons _ hm data hne, List.flatMap_cons, List.append_assoc]

theorem readPieces_returns (c : Nat) (hc : 0 < c) :
    ∀ (fuel : Nat) (h : Handle) (acc : List Byte), h.rest.length < fuel →
      ∃ r, readPieces fuel h c acc = .ret r := by
  intro fuel
  induction fuel with
  | zero => intro h acc hlt; omega
  | succ fuel ih =>
    intro h acc hlt
    have hc0 : c ≠ 0 := by omega
    have hm : 0 < min c maxRW := Nat.lt_min.mpr ⟨hc, maxRW_pos⟩
    rw [readPieces]
    unfold fileRead
    simp only [hc0, if_false]
    split
    · split_ifs <;> exact ⟨_, rfl⟩
    · rename_i x chunk h1 heq
      split at heq
      · simp at heq
      · split at heq
        · simp at heq
        · rename_i hne
          simp only [Prod.mk.injEq] at heq
          obtain ⟨-, -, hh⟩ := heq
          subst hh
          apply ih
          simp only [List.length_drop]
          have : 0 < h.rest.length := by
            cases hr : h.rest with
            | nil => simp [hr] at hne
            | cons a l => simp
          omega

theorem readPieces_empty_buffer_diverges :
    ∀ (fuel : Nat) (h : Handle) (acc : List Byte), readPieces fuel h 0 acc = .diverge := by
  intro fuel
  induction fuel with
  | zero => intro h acc; rfl
  | succ fuel ih => intro h acc; simp [readPieces, fileRead, ih]

theorem readPieces_fault_free (c : Nat) :
    ∀ (fuel : Nat) (rest : List Byte) (fault : Option (Nat × String)) (acc ps : List Byte),
      readPieces fuel { rest := rest, fault := fault } c acc = .ret (.ok ps) →
      readPieces fuel { rest := rest, fault := none } c acc = .ret (.ok ps) := by
  intro fuel
  induction fuel with
  | zero => intro rest fault acc ps h; simp [readPieces] at h
  | succ fuel ih =>
    intro rest fault acc ps h
    by_cases hc0 : c = 0
    · subst hc0
      simp only [readPieces, fileRead, if_true] at h ⊢
      exact ih _ _ _ _ h
    · cases fault with
      | none => exact h
      | some km =>
        obtain ⟨k, msg⟩ := km
        cases k with
        | zero => simp [readPieces, fileRead, hc0] at h
        | succ k =>
          by_cases hne : rest = []
          · subst hne
            simpa [readPieces, fileRead, hc0] using h
          · simp only [readPieces, fileRead, hc0, if_false, List.isEmpty_eq_true, hne,
              Option.map] at h ⊢
            exact ih _ _ _ _ h

theorem buildInfoDict_returns (env : Env) (filePath : String) (c : Int) (hc : 0 < c)
    (halloc : c ≤ maxAlloc) : ∃ r, buildInfoDict env filePath c = .ret r := by
  unfold buildInfoDict
  cases env.openFile filePath with
  | error err => exact ⟨_, rfl⟩
  | ok file =>
    simp only
    cases file.statErr with
    | some err => exact ⟨_, rfl⟩
    | none =>
      simp only [show ¬ (c < 0 ∨ (maxAlloc : Int) < c) by omega, if_false]
      obtain ⟨r, hr⟩ := readPieces_returns c.toNat (by omega) (file.data.length + 1)
        { rest := file.data, fault := file.readFault } [] (by simp)
      rw [hr]
      cases r with
      | error err => exact ⟨_, rfl⟩
      | ok ps => exact ⟨_, rfl⟩

theorem CalcInfoHashFromFile_returns (env : Env) (filePath : String) (c : Int) (hc : 0 < c)
    (halloc : c ≤ maxAlloc) : ∃ r, CalcInfoHashFromFile env filePath c = .ret r := by
  obtain ⟨r, hr⟩ := buildInfoDict_returns env filePath c hc halloc
  unfold CalcInfoHashFromFile
  rw [hr]
  cases r with
  | error err => exact ⟨_, rfl⟩
  | ok info => exact ⟨_, rfl⟩

/-- What the read loop makes of a file read without faults, for every chunk size that
make accepts: the chunks have the size of one read, the smaller of the chunk size and
maxRW. -/
theorem buildInfoDict_capped (env : Env) (filePath : String) (file : RegularFile) (c : Nat)
    (hopen : env.openFile filePath = .ok file) (hstat : file.statErr = none)
    (hfault : file.readFault = none) (hc : 0 < c) (halloc : c ≤ maxAlloc) :
    buildInfoDict env filePath c
      = .ret (.ok { Name := file.name, PieceLength := c,
                    Pieces := (specChunks (min c maxRW) file.data).flatMap sha1Sum,
                    Length := file.data.length }) := by
  unfold buildInfoDict
  rw [hopen]
  simp only [hstat, hfault, show ¬ ((c : Int) < 0 ∨ (maxAlloc : Int) < (c : Int)) by omega,
    if_false, Int.toNat_ofNat]
  rw [readPieces_full c hc _ _ _ (Nat.lt_succ_self _)]
  simp

theorem buildInfoDict_full (env : Env) (filePath : String) (file : RegularFile) (c : Nat)
    (hopen : env.openFile filePath = .ok file) (hstat : file.statErr = none)
    (hfault : file.readFault = none) (hc : 0 < c) (hcap : c ≤ maxRW) :
    buildInfoDict env filePath c
      = .ret (.ok { Name := file.name, PieceLength := c,
                    Pieces := (specChunks c file.data).flatMap sha1Sum,
                    Length := file.data.length }) := by
  have halloc : c ≤ maxAlloc := Nat.le_trans hcap (by decide)
  rw [buildInfoDict_capped env filePath file c hopen hstat hfault hc halloc,
    Nat.min_eq_left hcap]

theorem buildInfoDict_ok_inv (env : Env) (filePath : String) (c : Int) (file : RegularFile)
    (info : InfoDict) (hopen : env.openFile filePath = .ok file)
    (h : buildInfoDict env filePath c = .ret (.ok info)) :
    ∃ ps, readPieces (file.data.length + 1) { rest := file.data, fault := none } c.toNat []
        = .ret (.ok ps) ∧
      info = { Name := file.name, PieceLength := c, Pieces := ps,
               Length := file.data.length } := by
  unfold buildInfoDict at h
  rw [hopen] at h
  simp only at h
  cases hstat : file.statErr with
  | some err => simp [hstat] at h
  | none =>
    simp only [hstat] at h
    by_cases hneg : c < 0 ∨ (maxAlloc : Int) < c
    · simp [hneg] at h
    · simp only [hneg, if_false] at h
      cases hr : readPieces (file.data.length + 1)
          { rest := file.data, fault := file.readFault } c.toNat [] with
      | crash m => simp [hr] at h
      | diverge => simp [hr] at h
      | ret r =>
        cases r with
        | error err => simp [hr] at h
        | ok ps =>
          simp only [hr, Run.ret.injEq, Except.ok.injEq] at h
          exact ⟨ps, readPieces_fault_free _ _ _ _ _ _ hr, h.symm⟩

theorem CalcInfoHashFromFile_ok_inv (env : Env) (filePath : String) (c : Int) (id : String)
    (h : CalcInfoHashFromFile env filePath c = .ret (id, none)) :
    ∃ info buf, buildInfoDict env filePath c = .ret (.ok info) ∧
      bencodeEncode info = .ok buf ∧ id = hexOf (sha1Sum buf) := by
  unfold CalcInfoHashFromFile at h
  cases hb : buildInfoDict env filePath c with
  | crash m => simp [hb] at h
  | diverge => simp [hb] at h
  | ret r =>
    cases r with
    | error err => simp [hb] at h
    | ok info =>
      simp only [hb] at h
      cases he : bencodeEncode info with
      | error err => simp [he] at h
      | ok buf =>
        simp only [he, Run.ret.injEq, Prod.mk.injEq, and_true] at h
        exact ⟨info, buf, rfl, he, h.symm⟩

theorem CalcInfoHashFromFile_err_empty (env : Env) (filePath : String) (c : Int)
    (id : String) (err : Error)
    (h : CalcInfoHashFromFile env filePath c = .ret (id, some err)) : id = "" := by
  unfold CalcInfoHashFromFile at h
  cases hb : buildInfoDict env filePath c with
  | crash m => simp [hb] at h
  | diverge => simp [hb] at h
  | ret r =>
    cases r with
    | error e =>
      simp only [hb, Run.ret.injEq, Prod.mk.injEq] at h
      exact h.1.symm
    | ok info =>
      simp only [hb] at h
      cases he : bencodeEncode info with
      | error e =>
        simp only [he, Run.ret.injEq, Prod.mk.injEq] at h
        exact h.1.symm
      | ok buf => simp [he] at h

theorem specChunks_one_over (c : Nat) (hc : 0 < c) (data : List Byte)
    (hlen : data.length = c + 1) : specChunks c data = [data.take c, data.drop c] := by
  have hne : data ≠ [] := by
    intro h
    rw [h] at hlen
    simp at hlen
  have hdrop : (data.drop c).length = 1 := by rw [List.length_drop]; omega
  have hne2 : data.drop c ≠ [] := by
    intro h
    rw [h] at hdrop
    simp at hdrop
  have htake : (data.drop c).take c = data.drop c :=
    List.take_of_length_le (by omega)
  have hnil : (data.drop c).drop c = [] :=
    List.drop_eq_nil_of_le (by omega)
  rw [specChunks_cons c hc data hne, specChunks_cons c hc _ hne2, htake, hnil,
    specChunks_nil c hc]

/-- A file one byte longer than maxRW, hashed with a chunk size of its own length: the
loop reads maxRW bytes, then the last byte, and hashes each read as a chunk. -/
theorem buildInfoDict_one_over_cap (env : Env) (filePath : String) (file : RegularFile)
    (hopen : env.openFile filePath = .ok file) (hstat : file.statErr = none)
    (hfault : file.readFault = none) (hlen : file.data.length = maxRW + 1) :
    buildInfoDict env filePath ((maxRW + 1 : Nat) : Int)
      = .ret (.ok { Name := file.name, PieceLength := ((maxRW + 1 : Nat) : Int),
                    Pieces := sha1Sum (file.data.take maxRW)
                      ++ sha1Sum (file.data.drop maxRW),
                    Length := file.data.length }) := by
  rw [buildInfoDict_capped env filePath file (maxRW + 1) hopen hstat hfault
    (Nat.succ_pos _) (by decide), Nat.min_eq_right (Nat.le_succ _),
    specChunks_one_over maxRW maxRW_pos file.data hlen]
  simp [List.flatMap_cons]

/-- The identifier of the file a of twinEnv, by evaluation. -/
theorem twin_a_identifier :
    CalcInfoHashFromFile twinEnv "/blobs/a" 262144
      = .ret ("5988cb31ef27b5d606433e918de3c806cf628ebb", none) := by
  set_option maxRecDepth 1000000 in decide

/-- The identifier of the file b of twinEnv, by evaluation. -/
theorem twin_b_identifier :
    CalcInfoHashFromFile twinEnv "/blobs/b" 262144
      = .ret ("e87dc7e84a4120b8f35ccdfd6e45f1a17c7a96e7", none) := by
  set_option maxRecDepth 1000000 in decide

/-- The identifier of the file a of movedEnv, by evaluation. -/
theorem moved_a_identifier :
    CalcInfoHashFromFile movedEnv "/mirror/a" 262144
      = .ret ("5988cb31ef27b5d606433e918de3c806cf628ebb", none) := by
  set_option maxRecDepth 1000000 in decide

/-! ## Lemmas: the directory client, seed and initSeed -/

theorem GetInfohash_error_empty (env : Env) (digest : String) (err : Error)
    (h : (GetInfohash env digest).2 = some err) : (GetInfohash env digest).1 = "" := by
  unfold GetInfohash decodeInfohash at *
  split at h <;> try rfl
  split at h <;> try rfl
  split_ifs at h ⊢ <;> try rfl
  all_goals (split at h <;> try rfl)
  all_goals (split at h <;> first | rfl | simp at h)

theorem seedCalls_append (l1 l2 : List Event) :
    seedCalls (l1 ++ l2) = seedCalls l1 ++ seedCalls l2 := by
  induction l1 with
  | nil => rfl
  | cons e l1 ih => cases e <;> simp [seedCalls, ih]

theorem seedJoin_outcome (env : Env) (digest ih : String) (log : List Event) :
    ((∃ r, (seedJoin env digest ih log).1 = .ret r) ∨
      (seedJoin env digest ih log).1 = .diverge) ∧
    seedCalls (seedJoin env digest ih log).2 = seedCalls log ∧
    (seedJoin env digest ih log).1 = (seedJoin env digest ih []).1 := by
  cases h : env.addMagnet (magnetLink ih digest (trackerAnnounceURL env)) with
  | error err => simp [seedJoin, h, seedCalls_append, seedCalls]
  | ok t =>
    by_cases hg : env.gotInfo t = true <;>
      simp [seedJoin, h, hg, seedCalls_append, seedCalls]

/-- A call of seed returns or blocks, it does not panic; it is entered once; and whether
it returns, and what, does not depend on the calls logged before. -/
theorem seed_outcome (env : Env) (digest filePath : String) (log : List Event) :
    ((∃ r, (seed env digest filePath log).1 = .ret r) ∨
      (seed env digest filePath log).1 = .diverge) ∧
    seedCalls (seed env digest filePath log).2 = seedCalls log ++ [(digest, filePath)] ∧
    (seed env digest filePath log).1 = (seed env digest filePath []).1 := by
  unfold seed
  rcases hg : GetInfohash env digest with ⟨ih, _ | err⟩
  · simp only
    split_ifs with hempty
    · obtain ⟨r, hr⟩ := CalcInfoHashFromFile_returns env filePath 262144 (by decide)
        (by decide)
      rw [hr]
      rcases r with ⟨id, _ | err⟩
      · simp only
        cases hm : Modify env digest id with
        | some err => exact ⟨Or.inl ⟨_, rfl⟩, by simp [seedCalls_append, seedCalls], rfl⟩
        | none =>
          obtain ⟨h1, h2, h3⟩ := seedJoin_outcome env digest id
            (log ++ [.called digest filePath, .lookup digest, .compute filePath 262144,
                     .register digest id])
          obtain ⟨-, -, h4⟩ := seedJoin_outcome env digest id
            ([] ++ [.called digest filePath, .lookup digest, .compute filePath 262144,
                     .register digest id])
          exact ⟨h1, by rw [h2]; simp [seedCalls_append, seedCalls], by rw [h3, h4]⟩
      · exact ⟨Or.inl ⟨_, rfl⟩, by simp [seedCalls_append, seedCalls], rfl⟩
    · obtain ⟨h1, h2, h3⟩ := seedJoin_outcome env digest ih
        (log ++ [.called digest filePath, .lookup digest])
      obtain ⟨-, -, h4⟩ := seedJoin_outcome env digest ih
        ([] ++ [.called digest filePath, .lookup digest])
      exact ⟨h1, by rw [h2]; simp [seedCalls_append, seedCalls], by rw [h3, h4]⟩
  · exact ⟨Or.inl ⟨_, rfl⟩, by simp [seedCalls_append, seedCalls], rfl⟩

theorem seedLoop_step (env : Env) (d : Digest) (filePath : String)
    (rest : List (Digest × String)) (log : List Event) (r : Option Error)
    (hr : (seed env d.String filePath log).1 = .ret r) :
    seedLoop env ((d, filePath) :: rest) log
      = seedLoop env rest (seed env d.String filePath log).2 := by
  rw [seedLoop]
  rcases hs : seed env d.String filePath log with ⟨res, log1⟩
  rw [hs] at hr
  simp only at hr
  subst hr
  rfl

theorem seedLoop_blocked (env : Env) (d : Digest) (filePath : String)
    (rest : List (Digest × String)) (log : List Event)
    (hr : (seed env d.String filePath log).1 = .diverge) :
    seedLoop env ((d, filePath) :: rest) log
      = (.diverge, (seed env d.String filePath log).2) := by
  rw [seedLoop]
  rcases hs : seed env d.String filePath log with ⟨res, log1⟩
  rw [hs] at hr
  simp only at hr
  subst hr
  rfl

theorem seedLoop_calls (env : Env) (blobs : List (Digest × String))
    (hret : ∀ b ∈ blobs, ∃ r, (seed env b.1.String b.2 []).1 = .ret r) (log : List Event) :
    (seedLoop env blobs log).1 = .ret none ∧
    seedCalls (seedLoop env blobs log).2
      = seedCalls log ++ blobs.map fun b => (b.1.String, b.2) := by
  induction blobs generalizing log with
  | nil => simp [seedLoop]
  | cons b rest ih =>
    obtain ⟨d, filePath⟩ := b
    obtain ⟨r, hr⟩ := hret (d, filePath) (List.mem_cons_self _ _)
    obtain ⟨-, hcalls, hlog⟩ := seed_outcome env d.String filePath log
    rw [← hlog] at hr
    rw [seedLoop_step env d filePath rest log r hr]
    obtain ⟨h1, h2⟩ := ih (fun b hb => hret b (List.mem_cons_of_mem _ hb))
      (seed env d.String filePath log).2
    exact ⟨h1, by rw [h2, hcalls]; simp⟩

theorem blobHandler_no_children (env : Env) (p : String) (desc : Descriptor)
    (m : List (Digest × String)) : (blobHandler env p desc m).1 = ([], none) := by
  unfold blobHandler
  split_ifs
  · rfl
  · split <;> rfl

theorem Walk_blobHandler_target (env : Env) (p : String) (depth : Nat) (desc : Descriptor)
    (m : List (Digest × String)) :
    Walk (blobHandler env p) depth [desc] m = some (none, (blobHandler env p desc m).2) := by
  have h := blobHandler_no_children env p desc m
  rcases hb : blobHandler env p desc m with ⟨⟨children, err⟩, m1⟩
  rw [hb] at h
  simp only [Prod.mk.injEq] at h
  obtain ⟨hc, he⟩ := h
  subst hc he
  cases depth <;> simp [Walk, walkEach, hb]

/-- Whatever the content store references, the walks of initSeed complete and the map
they build holds digests of image targets only. -/
theorem collectBlobs_targets_only (env : Env) (p : String) (depth : Nat)
    (images : List Image) (m : List (Digest × String)) :
    ∃ blobs, collectBlobs env p depth images m = some blobs ∧
      ∀ entry ∈ blobs, entry ∈ m ∨ ∃ image ∈ images, image.Target.Digest = entry.1 := by
  induction images generalizing m with
  | nil => exact ⟨m, rfl, fun e he => Or.inl he⟩
  | cons image rest ih =>
    rw [collectBlobs, Walk_blobHandler_target]
    simp only
    obtain ⟨blobs, hb, hmem⟩ := ih (blobHandler env p image.Target m).2
    refine ⟨blobs, hb, ?_⟩
    intro entry he
    rcases hmem entry he with h | ⟨img, himg, hd⟩
    · have : entry ∈ m ∨ entry.1 = image.Target.Digest := by
        unfold blobHandler at h
        split_ifs at h
        · exact Or.inl h
        · split at h
          · exact Or.inl h
          · simp only [List.mem_append, List.mem_singleton] at h
            rcases h with h | h
            · exact Or.inl h
            · exact Or.inr (by rw [h])
      rcases this with h | h
      · exact Or.inl h
      · exact Or.inr ⟨image, List.mem_cons_self _ _, h.symm⟩
    · exact Or.inr ⟨img, List.mem_cons_of_mem _ himg, hd⟩

theorem collectBlobs_depth_irrelevant (env : Env) (p : String) (depth1 depth2 : Nat)
    (images : List Image) (m : List (Digest × String)) :
    collectBlobs env p depth1 images m = collectBlobs env p depth2 images m := by
  induction images generalizing m with
  | nil => rfl
  | cons image rest ih =>
    rw [collectBlobs, collectBlobs, Walk_blobHandler_target, Walk_blobHandler_target]
    exact ih _

/-- The depth allowed to the walks does not change what initSeed does. -/
theorem initSeed_walkDepth_irrelevant (env : Env) (containerdRoot : String)
    (depth1 depth2 : Nat) (log : List Event) :
    initSeed env containerdRoot depth1 log = initSeed env containerdRoot depth2 log := by
  unfold initSeed
  cases env.imageList with
  | error err => rfl
  | ok imageList =>
    simp only
    rw [collectBlobs_depth_irrelevant env _ depth1 depth2]

/-- A status other than 200, 404 and 500 leaves the answer of GetInfohash to the body of
the response. -/
theorem GetInfohash_other_status (env : Env) (digest : String) (resp : Response)
    (hparse : env.urlParse (metaserviceURL env) = none)
    (hget : env.httpGet (metaserviceURL env) digest = .ok resp)
    (h500 : resp.StatusCode ≠ 500) (h404 : resp.StatusCode ≠ 404) :
    GetInfohash env digest = decodeInfohash resp := by
  simp [GetInfohash, hparse, hget, h500, h404]

/-! ## The claims -/

/-- Claim C1, evaluated where it fails. The directory knows the digest, the swarm client
accepts the magnet link, and the completion wait ends with the cancellation error
of the context after 2 of 4 bytes. P2PFetch drops that error and opens the file of the
torrent, so Fetch returns the stream of the 2-byte file of the failed peer attempt and
not the result of the origin fetcher, which would have served all 4 bytes. -/
theorem Fetch_returns_partial_file_after_cancelled_wait :
    GetInfohash cancelledEnv layerDesc.Digest.String
      = ("5988cb31ef27b5d606433e918de3c806cf628ebb", none) ∧
    WaitP2PDownloadComplete (cancelledEnv.wakeups { id := 0 }
        { Name := magnetLink "5988cb31ef27b5d606433e918de3c806cf628ebb"
            layerDesc.Digest.String (trackerAnnounceURL cancelledEnv),
          Files := ["layer"] })
      = .ret (some (.text "context canceled")) ∧
    originFetcher { id := 0 } layerDesc
      = (some (.remote "origin" [0x10, 0x20, 0x30, 0x40]), none) ∧
    Fetch cancelledEnv originFetcher { id := 0 } layerDesc
      = .ret (some (.file "layer" [0x10, 0x20]), none) := by
  refine ⟨by decide, by decide, rfl, by decide⟩

/-- Claim C2. For every descriptor, when GetInfohash returns an error or the empty
identifier, Fetch returns what the origin fetcher returns for the same context and
descriptor: the stream of the origin when the origin reports no error, and the error of
the origin (with no stream) when the origin fails. -/
theorem Fetch_falls_back_when_lookup_fails (env : Env) (fallback : Fetcher) (ctx : Context)
    (desc : Descriptor)
    (hlookup : (GetInfohash env desc.Digest.String).2 ≠ none ∨
      (GetInfohash env desc.Digest.String).1 = "") :
    (∀ stream, fallback ctx desc = (stream, none) →
      Fetch env fallback ctx desc = .ret (stream, none)) ∧
    (∀ stream err, fallback ctx desc = (stream, some err) →
      Fetch env fallback ctx desc = .ret (none, some err)) := by
  have hempty : (GetInfohash env desc.Digest.String).1 = "" := by
    rcases hlookup with h | h
    · cases herr : (GetInfohash env desc.Digest.String).2 with
      | none => exact absurd herr h
      | some err => exact GetInfohash_error_empty env _ err herr
    · exact h
  constructor
  · intro stream hfb
    simp [Fetch, P2PFetch, hempty, FallbackFetch, hfb]
  · intro stream err hfb
    simp [Fetch, P2PFetch, hempty, FallbackFetch, hfb]

theorem Fetch_falls_back_when_lookup_fails_witness :
    ((GetInfohash emptyEnv layerDesc.Digest.String).2 ≠ none ∨
      (GetInfohash emptyEnv layerDesc.Digest.String).1 = "") ∧
    Fetch emptyEnv originFetcher { id := 0 } layerDesc
      = .ret (some (.remote "origin" [0x10, 0x20, 0x30, 0x40]), none) ∧
    Fetch emptyEnv brokenFetcher { id := 0 } layerDesc
      = .ret (none, some (.text "origin: 503 Service Unavailable")) :=
  ⟨by decide,
   (Fetch_falls_back_when_lookup_fails emptyEnv originFetcher { id := 0 } layerDesc
      (by decide)).1 _ rfl,
   (Fetch_falls_back_when_lookup_fails emptyEnv brokenFetcher { id := 0 } layerDesc
      (by decide)).2 _ _ rfl⟩

/-- Claim C3, as stated, fails for chunk sizes above what one read transfers or make
accepts. With chunk size 2^62 make panics and no info structure is built. With a file of
2^30 + 1 bytes and a chunk size of 2^30 + 1 the claim has one chunk and 20 bytes of
Pieces; the loop hashes what each Read returns, 2^30 bytes and then 1 byte, so Pieces
has 40 bytes. -/
theorem chunk_size_above_one_read_is_split :
    buildInfoDict fiveEnv "/blobs/five" (2 ^ 62) = .crash "makeslice: len out of range" ∧
    hugeEnv.openFile "/blobs/huge" = .ok hugeFile ∧
    hugeFile.data.length = maxRW + 1 ∧
    maxRW = 2 ^ 30 ∧
    ceilDiv (maxRW + 1) (maxRW + 1) = 1 ∧
    buildInfoDict hugeEnv "/blobs/huge" ((maxRW + 1 : Nat) : Int)
      = .ret (.ok { Name := "huge", PieceLength := ((maxRW + 1 : Nat) : Int),
                    Pieces := sha1Sum (hugeFile.data.take maxRW)
                      ++ sha1Sum (hugeFile.data.drop maxRW),
                    Length := hugeFile.data.length }) ∧
    (sha1Sum (hugeFile.data.take maxRW) ++ sha1Sum (hugeFile.data.drop maxRW)).length = 40 ∧
    ((specChunks (maxRW + 1) hugeFile.data).flatMap sha1Sum).length = 20 ∧
    sha1Sum (hugeFile.data.take maxRW) ++ sha1Sum (hugeFile.data.drop maxRW)
      ≠ (specChunks (maxRW + 1) hugeFile.data).flatMap sha1Sum := by
  have hlen : hugeFile.data.length = maxRW + 1 := List.length_replicate _ _
  have h40 : (sha1Sum (hugeFile.data.take maxRW)
      ++ sha1Sum (hugeFile.data.drop maxRW)).length = 40 := by
    rw [List.length_append, sha1Sum_length, sha1Sum_length]
  have hone : ceilDiv (maxRW + 1) (maxRW + 1) = 1 := by decide
  have h20 : ((specChunks (maxRW + 1) hugeFile.data).flatMap sha1Sum).length = 20 := by
    rw [flatMap_sha1_length, specChunks_length, hlen, hone]
  refine ⟨rfl, rfl, hlen, rfl, hone,
    buildInfoDict_one_over_cap hugeEnv "/blobs/huge" hugeFile rfl rfl rfl hlen, h40, h20, ?_⟩
  intro heq
  rw [heq, h20] at h40
  omega

/-- Claim C3, amended. For a file of n bytes that opens, stats and reads without fault,
and a positive chunk size c of at most maxRW = 2^30 bytes, what one Read transfers,
CalcInfoHashFromFile builds the info structure with PieceLength c, Length n and Pieces
the concatenation, in order, of the SHA-1 of each chunk, and hashes the encoding of that
structure. There are ceil(n/c) chunks, their concatenation is the file, chunk i is the
c bytes from offset i*c, except the last, which has n - c*(ceil(n/c)-1) bytes, and
Pieces has 20 bytes per chunk. For n = 600000 and c = 262144 the chunks have 262144,
262144 and 75712 bytes and Pieces is the 60-byte concatenation of their three hashes. -/
theorem CalcInfoHashFromFile_chunking (env : Env) (filePath : String) (file : RegularFile)
    (c : Nat) (hopen : env.openFile filePath = .ok file) (hstat : file.statErr = none)
    (hfault : file.readFault = none) (hc : 0 < c) (hcap : c ≤ maxRW) :
    buildInfoDict env filePath c
      = .ret (.ok { Name := file.name, PieceLength := c,
                    Pieces := (specChunks c file.data).flatMap sha1Sum,
                    Length := file.data.length }) ∧
    (∃ buf,
      bencodeEncode { Name := file.name, PieceLength := c,
                      Pieces := (specChunks c file.data).flatMap sha1Sum,
                      Length := file.data.length } = .ok buf ∧
      CalcInfoHashFromFile env filePath c = .ret (hexOf (sha1Sum buf), none)) ∧
    (specChunks c file.data).length = ceilDiv file.data.length c ∧
    (specChunks c file.data).flatten = file.data ∧
    (∀ i, i < ceilDiv file.data.length c →
      (specChunks c file.data).getD i [] = (file.data.drop (i * c)).take c ∧
      ((specChunks c file.data).getD i []).length
        = if i + 1 < ceilDiv file.data.length c then c
          else file.data.length - c * (ceilDiv file.data.length c - 1)) ∧
    ((specChunks c file.data).flatMap sha1Sum).length = 20 * ceilDiv file.data.length c ∧
    (file.data.length = 600000 → c = 262144 →
      (specChunks c file.data).map List.length = [262144, 262144, 75712] ∧
      (specChunks c file.data).flatMap sha1Sum
        = sha1Sum (file.data.take 262144)
          ++ sha1Sum ((file.data.drop 262144).take 262144)
          ++ sha1Sum (file.data.drop 524288) ∧
      ((specChunks c file.data).flatMap sha1Sum).length = 60) := by
  have hbuild := buildInfoDict_full env filePath file c hopen hstat hfault hc hcap
  refine ⟨hbuild, ?_, specChunks_length c file.data,
    specChunks_flatten c hc _ _ (Nat.le_refl _),
    fun i hi => ⟨specChunks_getD c file.data i hi, specChunks_sizes c hc file.data i hi⟩,
    by rw [flatMap_sha1_length, specChunks_length], ?_⟩
  · refine ⟨_, rfl, ?_⟩
    unfold CalcInfoHashFromFile
    rw [hbuild]
    rfl
  intro hlen hc262
  subst hc262
  have hk : ceilDiv file.data.length 262144 = 3 := by rw [hlen]; rfl
  have hchunks : specChunks 262144 file.data
      = [file.data.take 262144, (file.data.drop 262144).take 262144,
         file.data.drop 524288] := by
    unfold specChunks
    rw [hk]
    have hlast : (file.data.drop 524288).take 262144 = file.data.drop 524288 :=
      List.take_of_length_le (by rw [List.length_drop]; omega)
    simp [List.range_succ, hlast]
  refine ⟨?_, ?_, ?_⟩
  · rw [hchunks]
    simp only [List.map_cons, List.map_nil, List.length_take, List.length_drop, hlen]
    rfl
  · rw [hchunks]
    simp [List.flatMap_cons]
  · rw [flatMap_sha1_length, specChunks_length, hk]

theorem CalcInfoHashFromFile_chunking_witness :
    fiveEnv.openFile "/blobs/five" = .ok fiveBytes ∧ 0 < 2 ∧ 2 ≤ maxRW ∧
    buildInfoDict fiveEnv "/blobs/five" (2 : Nat)
      = .ret (.ok { Name := "five", PieceLength := (2 : Nat),
                    Pieces := (specChunks 2 [1, 2, 3, 4, 5]).flatMap sha1Sum,
                    Length := (5 : Nat) }) ∧
    specChunks 2 [1, 2, 3, 4, 5] = [[1, 2], [3, 4], [5]] :=
  ⟨rfl, by decide, by decide,
   (CalcInfoHashFromFile_chunking fiveEnv "/blobs/five" fiveBytes 2 rfl rfl rfl
      (by decide) (by decide)).1,
   by decide⟩

/-- Claim C4, evaluated where it fails. The store tracks one image whose manifest
references a config and a layer, and the files of all three exist. The handler that
initSeed passes to Walk returns no children, so the walk stops at the target: seed is
entered for the manifest only, while the blobs the claim names are the manifest, the
config and the layer. -/
theorem initSeed_seeds_only_image_targets :
    initSeed storeEnv "/var/lib/containerd" 8 []
      = (.ret none,
         [.called "sha256:3f"
            "/var/lib/containerd/io.containerd.content.v1.content/blobs/sha256/3f",
          .lookup "sha256:3f"]) ∧
    seedCalls (initSeed storeEnv "/var/lib/containerd" 8 []).2
      = [("sha256:3f",
          "/var/lib/containerd/io.containerd.content.v1.content/blobs/sha256/3f")] ∧
    referencedBlobs storeEnv
        (joinPath ["/var/lib/containerd", "io.containerd.content.v1.content"]) 8
      = [("sha256:3f",
          "/var/lib/containerd/io.containerd.content.v1.content/blobs/sha256/3f"),
         ("sha256:c0",
          "/var/lib/containerd/io.containerd.content.v1.content/blobs/sha256/c0"),
         ("sha256:1a",
          "/var/lib/containerd/io.containerd.content.v1.content/blobs/sha256/1a")] := by
  refine ⟨by decide, by decide, by decide⟩

/-- Claim C5. When the endpoint parses, GetInfohash classifies the answer of the
directory, for every digest: status 200 with a string entry infohash returns that string
and no error; status 404 returns the empty identifier and no error; a transport failure
returns its error and the empty identifier; status 500 returns an error and the empty
identifier; status 200 with a body that has no string entry infohash returns an error and
the empty identifier. -/
theorem GetInfohash_classification (env : Env) (digest : String)
    (hparse : env.urlParse (metaserviceURL env) = none) :
    (∀ fields infohash,
        env.httpGet (metaserviceURL env) digest
            = .ok { StatusCode := 200, Body := .object fields } →
        fields.lookup "infohash" = some (.string infohash) →
        GetInfohash env digest = (infohash, none)) ∧
    (∀ body,
        env.httpGet (metaserviceURL env) digest = .ok { StatusCode := 404, Body := body } →
        GetInfohash env digest = ("", none)) ∧
    (∀ err,
        env.httpGet (metaserviceURL env) digest = .error err →
        GetInfohash env digest = ("", some err)) ∧
    (∀ body,
        env.httpGet (metaserviceURL env) digest = .ok { StatusCode := 500, Body := body } →
        GetInfohash env digest = ("", some (.text "StatusInternalServerError"))) ∧
    (∀ body,
        env.httpGet (metaserviceURL env) digest = .ok { StatusCode := 200, Body := body } →
        (∀ fields infohash, body = .object fields →
          fields.lookup "infohash" ≠ some (.string infohash)) →
        ∃ err, GetInfohash env digest = ("", some err)) := by
  refine ⟨?_, ?_, ?_, ?_, ?_⟩
  · intro fields infohash hget hfield
    simp [GetInfohash, decodeInfohash, hparse, hget, hfield]
  · intro body hget
    simp [GetInfohash, hparse, hget]
  · intro err hget
    simp [GetInfohash, hparse, hget]
  · intro body hget
    simp [GetInfohash, hparse, hget]
  · intro body hget hlacks
    cases body with
    | unreadable err => exact ⟨err, by simp [GetInfohash, decodeInfohash, hparse, hget]⟩
    | malformed err => exact ⟨err, by simp [GetInfohash, decodeInfohash, hparse, hget]⟩
    | object fields =>
      refine ⟨.text "Bad response: 200 but infohash not found", ?_⟩
      have hl := hlacks fields
      cases hfield : fields.lookup "infohash" with
      | none => simp [GetInfohash, decodeInfohash, hparse, hget, hfield]
      | some v =>
        cases v with
        | string s => exact absurd hfield (hl s rfl)
        | _ => simp [GetInfohash, decodeInfohash, hparse, hget, hfield]

theorem GetInfohash_classification_witness :
    failingDirectoryEnv.urlParse (metaserviceURL failingDirectoryEnv) = none ∧
    GetInfohash failingDirectoryEnv "sha256:3f"
      = ("", some (.text "StatusInternalServerError")) ∧
    GetInfohash knownEnv "sha256:3f" = ("5988cb31ef27b5d606433e918de3c806cf628ebb", none) ∧
    GetInfohash freshEnv "sha256:3f" = ("", none) :=
  ⟨by decide,
   (GetInfohash_classification failingDirectoryEnv "sha256:3f" (by decide)).2.2.2.1
     (.malformed (.text "invalid character")) rfl,
   (GetInfohash_classification knownEnv "sha256:3f" (by decide)).1
     [("infohash", .string "5988cb31ef27b5d606433e918de3c806cf628ebb")] _ rfl rfl,
   (GetInfohash_classification freshEnv "sha256:3f" (by decide)).2.1 (.object []) rfl⟩

/-- Claim C6, as stated, fails when a call of seed does not return. No peer supplies the
metadata, so the first call of seed blocks in its receive on GotInfo after AddMagnet:
the loop never reaches the second blob, and initSeed does not return. -/
theorem seedLoop_stops_at_blocked_seed :
    seedLoop stalledEnv batchBlobs []
      = (.diverge,
         [.called "sha256:3f" "/blobs/sha256/3f", .lookup "sha256:3f",
          .join (magnetLink "5988cb31ef27b5d606433e918de3c806cf628ebb" "sha256:3f"
            trackerDefault)]) ∧
    seedCalls (seedLoop stalledEnv batchBlobs []).2 = [("sha256:3f", "/blobs/sha256/3f")] ∧
    batchBlobs.map (fun b => (b.1.String, b.2))
      = [("sha256:3f", "/blobs/sha256/3f"), ("sha256:1a", "/blobs/sha256/1a")] ∧
    (initSeed stalledEnv "/var/lib/containerd" 0 []).1 = .diverge ∧
    seedCalls (initSeed stalledEnv "/var/lib/containerd" 0 []).2
      = [("sha256:3f",
          "/var/lib/containerd/io.containerd.content.v1.content/blobs/sha256/3f")] := by
  refine ⟨by decide, by decide, by decide, by decide, by decide⟩

/-- Claim C6, amended. For every list of blobs and every environment in which each call
of seed returns, whatever it returns, the second loop of initSeed returns nil and enters
seed exactly once for each blob of the list, in order: after a call that returned, with
nil or with an error, the loop goes on with the rest. When the listing yields images and
the walks yield the map, initSeed is that loop, so it returns nil as well. -/
theorem initSeed_seeds_every_blob (env : Env) (blobs : List (Digest × String))
    (log : List Event)
    (hret : ∀ b ∈ blobs, ∃ r, (seed env b.1.String b.2 []).1 = .ret r) :
    (seedLoop env blobs log).1 = .ret none ∧
    seedCalls (seedLoop env blobs log).2
      = seedCalls log ++ blobs.map (fun b => (b.1.String, b.2)) ∧
    (∀ d filePath rest r, (seed env d.String filePath log).1 = .ret r →
      seedLoop env ((d, filePath) :: rest) log
        = seedLoop env rest (seed env d.String filePath log).2) ∧
    (∀ containerdRoot walkDepth imageList,
      env.imageList = .ok imageList → imageList ≠ [] →
      collectBlobs env (joinPath [containerdRoot, "io.containerd.content.v1.content"])
        walkDepth imageList [] = some blobs →
      initSeed env containerdRoot walkDepth log = seedLoop env blobs log) := by
  obtain ⟨h1, h2⟩ := seedLoop_calls env blobs hret log
  refine ⟨h1, h2, ?_, ?_⟩
  · intro d filePath rest r hr
    exact seedLoop_step env d filePath rest log r hr
  · intro root depth images himg hne hcol
    have hlen : images.length ≠ 0 := fun h => hne (List.length_eq_zero.mp h)
    simp [initSeed, himg, hlen, hcol]

theorem initSeed_seeds_every_blob_witness :
    (∀ b ∈ batchBlobs, ∃ r, (seed batchEnv b.1.String b.2 []).1 = .ret r) ∧
    (seed batchEnv "sha256:3f" "/blobs/sha256/3f" []).1
      = .ret (some (.text "StatusInternalServerError")) ∧
    (seed batchEnv "sha256:1a" "/blobs/sha256/1a" []).1 = .ret none ∧
    (seedLoop batchEnv batchBlobs []).1 = .ret none ∧
    seedCalls (seedLoop batchEnv batchBlobs []).2
      = seedCalls [] ++ batchBlobs.map (fun b => (b.1.String, b.2)) ∧
    seedCalls [] ++ batchBlobs.map (fun b => (b.1.String, b.2))
      = [("sha256:3f", "/blobs/sha256/3f"), ("sha256:1a", "/blobs/sha256/1a")] :=
  have hret : ∀ b ∈ batchBlobs, ∃ r, (seed batchEnv b.1.String b.2 []).1 = .ret r := by
    intro b hb
    simp only [batchBlobs, List.mem_cons, List.mem_singleton, List.not_mem_nil,
      or_false] at hb
    rcases hb with rfl | rfl
    · exact ⟨some (.text "StatusInternalServerError"), by decide⟩
    · exact ⟨none, by decide⟩
  ⟨hret, by decide, by decide,
   (initSeed_seeds_every_blob batchEnv batchBlobs [] hret).1,
   (initSeed_seeds_every_blob batchEnv batchBlobs [] hret).2.1,
   by decide⟩

/-- Claim C8, as stated, fails: two files of the same single byte whose names differ get
different identifiers for the same chunk size. -/
theorem same_bytes_distinct_identifiers :
    (∃ file1 file2, twinEnv.openFile "/blobs/a" = .ok file1 ∧
      twinEnv.openFile "/blobs/b" = .ok file2 ∧ file1.data = file2.data) ∧
    CalcInfoHashFromFile twinEnv "/blobs/a" 262144
      = .ret ("5988cb31ef27b5d606433e918de3c806cf628ebb", none) ∧
    CalcInfoHashFromFile twinEnv "/blobs/b" 262144
      = .ret ("e87dc7e84a4120b8f35ccdfd6e45f1a17c7a96e7", none) ∧
    CalcInfoHashFromFile twinEnv "/blobs/a" 262144
      ≠ CalcInfoHashFromFile twinEnv "/blobs/b" 262144 := by
  refine ⟨⟨_, _, rfl, rfl, rfl⟩, twin_a_identifier, twin_b_identifier, ?_⟩
  rw [twin_a_identifier, twin_b_identifier]
  decide

/-- Claim C8, amended. For every chunk size and every two files whose base names and
byte contents are both identical, two successful runs of CalcInfoHashFromFile return the
same identifier: the identifier is a function of the base name, the bytes and the chunk
size. -/
theorem CalcInfoHashFromFile_same_name_same_bytes (env1 env2 : Env) (path1 path2 : String)
    (file1 file2 : RegularFile) (c : Int) (id1 id2 : String)
    (hopen1 : env1.openFile path1 = .ok file1) (hopen2 : env2.openFile path2 = .ok file2)
    (hname : file1.name = file2.name) (hdata : file1.data = file2.data)
    (h1 : CalcInfoHashFromFile env1 path1 c = .ret (id1, none))
    (h2 : CalcInfoHashFromFile env2 path2 c = .ret (id2, none)) : id1 = id2 := by
  obtain ⟨info1, buf1, hb1, he1, hid1⟩ := CalcInfoHashFromFile_ok_inv env1 path1 c id1 h1
  obtain ⟨info2, buf2, hb2, he2, hid2⟩ := CalcInfoHashFromFile_ok_inv env2 path2 c id2 h2
  obtain ⟨ps1, hr1, hi1⟩ := buildInfoDict_ok_inv env1 path1 c file1 info1 hopen1 hb1
  obtain ⟨ps2, hr2, hi2⟩ := buildInfoDict_ok_inv env2 path2 c file2 info2 hopen2 hb2
  rw [hdata, hr2] at hr1
  simp only [Run.ret.injEq, Except.ok.injEq] at hr1
  have hinfo : info1 = info2 := by rw [hi1, hi2, hname, hdata, hr1]
  rw [hinfo, he2] at he1
  simp only [Except.ok.injEq] at he1
  rw [hid1, hid2, he1]

theorem CalcInfoHashFromFile_same_name_same_bytes_witness :
    twinEnv.openFile "/blobs/a"
      = .ok { name := "a", data := [0x78], statErr := none, readFault := none } ∧
    movedEnv.openFile "/mirror/a"
      = .ok { name := "a", data := [0x78], statErr := none, readFault := none } ∧
    CalcInfoHashFromFile twinEnv "/blobs/a" 262144
      = .ret ("5988cb31ef27b5d606433e918de3c806cf628ebb", none) ∧
    CalcInfoHashFromFile movedEnv "/mirror/a" 262144
      = .ret ("5988cb31ef27b5d606433e918de3c806cf628ebb", none) ∧
    "5988cb31ef27b5d606433e918de3c806cf628ebb" = "5988cb31ef27b5d606433e918de3c806cf628ebb" :=
  ⟨rfl, rfl, twin_a_identifier, moved_a_identifier,
   CalcInfoHashFromFile_same_name_same_bytes twinEnv movedEnv "/blobs/a" "/mirror/a" _ _
     262144 _ _ rfl rfl rfl rfl twin_a_identifier moved_a_identifier⟩

/-- Claim C9. Whenever CalcInfoHashFromFile succeeds, for every file and chunk size, the
identifier has exactly 40 characters, each one of 0123456789abcdef, and is the
hexadecimal rendering of the 20-byte SHA-1 of the encoded info structure; whenever it
returns an error, the string it returns with it is empty. -/
theorem CalcInfoHashFromFile_result_format (env : Env) (filePath : String) (c : Int)
    (id : String) :
    (CalcInfoHashFromFile env filePath c = .ret (id, none) →
      id.length = 40 ∧ (∀ ch ∈ id.toList, ch ∈ hexDigits) ∧
      ∃ info buf, buildInfoDict env filePath c = .ret (.ok info) ∧
        bencodeEncode info = .ok buf ∧ (sha1Sum buf).length = 20 ∧
        id = hexOf (sha1Sum buf)) ∧
    (∀ err, CalcInfoHashFromFile env filePath c = .ret (id, some err) → id = "") := by
  constructor
  · intro h
    obtain ⟨info, buf, hb, he, hid⟩ := CalcInfoHashFromFile_ok_inv env filePath c id h
    refine ⟨?_, ?_, info, buf, hb, he, sha1Sum_length buf, hid⟩
    · rw [hid, hexOf_length, sha1Sum_length]
    · rw [hid]; exact hexOf_chars _
  · intro err h
    exact CalcInfoHashFromFile_err_empty env filePath c id err h

theorem CalcInfoHashFromFile_result_format_witness :
    CalcInfoHashFromFile twinEnv "/blobs/b" 262144
      = .ret ("e87dc7e84a4120b8f35ccdfd6e45f1a17c7a96e7", none) ∧
    "e87dc7e84a4120b8f35ccdfd6e45f1a17c7a96e7".length = 40 ∧
    CalcInfoHashFromFile emptyEnv "/blobs/b" 262144
      = .ret ("", some (.text "no such file or directory")) ∧
    "" = "" :=
  ⟨twin_b_identifier,
   ((CalcInfoHashFromFile_result_format twinEnv "/blobs/b" 262144 _).1
      twin_b_identifier).1,
   rfl,
   (CalcInfoHashFromFile_result_format emptyEnv "/blobs/b" 262144 _).2
     (.text "no such file or directory") rfl⟩

/-- Claim C10. Modify returns an error exactly when the endpoint fails to parse, the
request fails at transport level, or the response has status 400 or status 500; for
every other status, 200 as well as 404 or 503, it returns nil. -/
theorem Modify_error_iff (env : Env) (digest infohash : String) :
    Modify env digest infohash ≠ none ↔
      (env.urlParse (metaserviceURL env) ≠ none ∨
       (∃ err, env.httpPost (metaserviceURL env) digest infohash = .error err) ∨
       (∃ resp, env.httpPost (metaserviceURL env) digest infohash = .ok resp ∧
          (resp.StatusCode = 400 ∨ resp.StatusCode = 500))) := by
  unfold Modify
  cases hparse : env.urlParse (metaserviceURL env) with
  | some err => simp
  | none =>
    cases hpost : env.httpPost (metaserviceURL env) digest infohash with
    | error err => simp
    | ok resp =>
      by_cases h500 : resp.StatusCode = 500
      · simp [h500]
      · by_cases h400 : resp.StatusCode = 400
        · simp [h400]
        · simp [h500, h400]

end P2PAgent
